import Mathlib

/-!
Verification of the liberation-analytics credential core: token issuance
(`token_management.go`, `cmd/token-manager/main.go`), token validation and
permission gating (`auth.go`), and dashboard basic-auth
(`dashboard_auth.go`), shallowly embedded in Lean.

Modelling conventions:
* Go strings are Lean `String`s; the parsing helpers work on `String.data`
  (`List Char`).
* `time.Time` instants and `time.Duration` values are `Int` nanoseconds;
  64-bit wrap-around of `time.Duration` arithmetic is made explicit with
  `wrap64`.
* The database table `api_tokens` is a `List TokenRow`; SQL statements are
  embedded as list operations with the same observable behaviour
  (`WHERE`-filtered first match for `QueryRow`, row count for
  `RowsAffected`).  A persistence-layer failure is injected through the
  `DBError.other` constructor where a claim quantifies over it.
* Randomness (`crypto/rand` in `generateSecureToken`) and the clock are
  threaded as explicit arguments.
-/

namespace LibAnalytics

/-! ## Go string helpers (`strings` package) -/

/-- `strings.HasPrefix`, on the underlying character lists. -/
def goStartsWith (s p : String) : Bool := p.data.isPrefixOf s.data

/-- `strings.TrimPrefix`: drops `p` from the front of `s` when present. -/
def goTrimLeading (s p : String) : String :=
  if goStartsWith s p then ⟨s.data.drop p.data.length⟩ else s

/-- `strings.HasSuffix`. -/
def goEndsWith (s p : String) : Bool := p.data.isSuffixOf s.data

/-- `strings.TrimSuffix`: drops `p` from the end of `s` when present. -/
def goTrimTrailing (s p : String) : String :=
  if goEndsWith s p then ⟨s.data.take (s.data.length - p.data.length)⟩ else s

/-- ASCII whitespace, standing in for the Unicode space set used by
`strings.TrimSpace` / `fmt`'s scanner (every input in this development is
ASCII). -/
def isGoSpace (c : Char) : Bool :=
  c == ' ' || c == '\t' || c == '\n' || c == '\r'

/-- `strings.TrimSpace`, on character lists. -/
def trimSpaceList (l : List Char) : List Char :=
  ((l.dropWhile isGoSpace).reverse.dropWhile isGoSpace).reverse

/-- `strings.Split(s, ",")`, on character lists. -/
def splitComma : List Char → List (List Char)
  | [] => [[]]
  | c :: rest =>
    if c = ',' then [] :: splitComma rest
    else
      match splitComma rest with
      | g :: gs => (c :: g) :: gs
      | [] => [[c]]

def isDigitCh (c : Char) : Bool := '0' ≤ c && c ≤ '9'

/-! ## SHA-256 (`crypto/sha256` + `encoding/hex`)

`hashToken` in `auth.go` (duplicated verbatim in the issuance CLI) is
`hex.EncodeToString(sha256.Sum256([]byte(token))[:])`.  The digest is
embedded in full, on `Nat` words reduced mod `2^32`. -/

def add32 (a b : Nat) : Nat := (a + b) % 4294967296

def rotr32 (x n : Nat) : Nat := ((x >>> n) ||| (x <<< (32 - n))) % 4294967296

def shaCh (x y z : Nat) : Nat := (x &&& y) ^^^ ((x ^^^ 4294967295) &&& z)

def shaMaj (x y z : Nat) : Nat := (x &&& y) ^^^ (x &&& z) ^^^ (y &&& z)

def bigSigma0 (x : Nat) : Nat := rotr32 x 2 ^^^ rotr32 x 13 ^^^ rotr32 x 22

def bigSigma1 (x : Nat) : Nat := rotr32 x 6 ^^^ rotr32 x 11 ^^^ rotr32 x 25

def smallSigma0 (x : Nat) : Nat := rotr32 x 7 ^^^ rotr32 x 18 ^^^ (x >>> 3)

def smallSigma1 (x : Nat) : Nat := rotr32 x 17 ^^^ rotr32 x 19 ^^^ (x >>> 10)

/-- The 64 SHA-256 round constants (fractional parts of the cube roots of
the first 64 primes), in decimal. -/
def sha256K : List Nat :=
  [1116352408, 1899447441, 3049323471, 3921009573,
   961987163, 1508970993, 2453635748, 2870763221,
   3624381080, 310598401, 607225278, 1426881987,
   1925078388, 2162078206, 2614888103, 3248222580,
   3835390401, 4022224774, 264347078, 604807628,
   770255983, 1249150122, 1555081692, 1996064986,
   2554220882, 2821834349, 2952996808, 3210313671,
   3336571891, 3584528711, 113926993, 338241895,
   666307205, 773529912, 1294757372, 1396182291,
   1695183700, 1986661051, 2177026350, 2456956037,
   2730485921, 2820302411, 3259730800, 3345764771,
   3516065817, 3600352804, 4094571909, 275423344,
   430227734, 506948616, 659060556, 883997877,
   958139571, 1322822218, 1537002063, 1747873779,
   1955562222, 2024104815, 2227730452, 2361852424,
   2428436474, 2756734187, 3204031479, 3329325298]

/-- The initial SHA-256 hash state (fractional parts of the square roots
of the first 8 primes), in decimal. -/
def sha256H0 : List Nat :=
  [1779033703, 3144134277, 1013904242, 2773480762,
   1359893119, 2600822924, 528734635, 1541459225]

/-- UTF-8 encoding of one character, as Go's `[]byte(string)` produces. -/
def utf8Bytes (c : Char) : List Nat :=
  let n := c.toNat
  if n < 0x80 then [n]
  else if n < 0x800 then
    [0xC0 ||| (n >>> 6), 0x80 ||| (n &&& 0x3F)]
  else if n < 0x10000 then
    [0xE0 ||| (n >>> 12), 0x80 ||| ((n >>> 6) &&& 0x3F), 0x80 ||| (n &&& 0x3F)]
  else
    [0xF0 ||| (n >>> 18), 0x80 ||| ((n >>> 12) &&& 0x3F),
     0x80 ||| ((n >>> 6) &&& 0x3F), 0x80 ||| (n &&& 0x3F)]

def strBytes (s : String) : List Nat := (s.data.map utf8Bytes).flatten

/-- SHA-256 padding: `0x80`, zeros to 56 mod 64, then the 64-bit big-endian
bit length. -/
def padMessage (msg : List Nat) : List Nat :=
  let len := msg.length
  let bitLen := len * 8
  let padZeros := (119 - len % 64) % 64
  msg ++ [0x80] ++ List.replicate padZeros 0 ++
    (List.range 8).map (fun i => (bitLen >>> ((7 - i) * 8)) % 256)

/-- Big-endian 32-bit words from a byte list whose length is a multiple
of 4. -/
def bytesToWords : List Nat → List Nat
  | b0 :: b1 :: b2 :: b3 :: rest =>
    (((b0 * 256 + b1) * 256 + b2) * 256 + b3) :: bytesToWords rest
  | _ => []

/-- Split the word list (whose length is always a multiple of 16 after
padding) into 16-word blocks. -/
def toBlocks (ws : List Nat) : List (List Nat) :=
  (List.range (ws.length / 16)).map (fun i => ((ws.drop (16 * i)).take 16))

/-- Message-schedule extension of a 16-word block to 64 words. -/
def schedule (block : List Nat) : List Nat :=
  (List.range 48).foldl
    (fun w _ =>
      let n := w.length
      w ++ [add32 (add32 (smallSigma1 (w.getD (n - 2) 0)) (w.getD (n - 7) 0))
             (add32 (smallSigma0 (w.getD (n - 15) 0)) (w.getD (n - 16) 0))])
    block

def compressRound (st : List Nat) (kw : Nat × Nat) : List Nat :=
  match st with
  | [a, b, c, d, e, f, g, h] =>
    let t1 := add32 h (add32 (bigSigma1 e) (add32 (shaCh e f g) (add32 kw.1 kw.2)))
    let t2 := add32 (bigSigma0 a) (shaMaj a b c)
    [add32 t1 t2, a, b, c, add32 d t1, e, f, g]
  | other => other

def compressBlock (h : List Nat) (block : List Nat) : List Nat :=
  let st := (sha256K.zip (schedule block)).foldl compressRound h
  (h.zip st).map (fun p => add32 p.1 p.2)

def sha256Words (msg : List Nat) : List Nat :=
  (toBlocks (bytesToWords (padMessage msg))).foldl compressBlock sha256H0

def hexDigit (n : Nat) : Char :=
  if n < 10 then Char.ofNat (48 + n) else Char.ofNat (87 + n)

def wordToHex (w : Nat) : List Char :=
  (List.range 8).map (fun i => hexDigit ((w >>> ((7 - i) * 4)) &&& 0xf))

/-- `hashToken` (`auth.go`): lowercase-hex SHA-256 digest of the token. -/
def hashToken (token : String) : String :=
  ⟨((sha256Words (strBytes token)).map wordToHex).flatten⟩

/-! ## 64-bit integer wrap

Go's `time.Duration` is an `int64` of nanoseconds, and multiplication such
as `time.Duration(d) * 24 * time.Hour` wraps around on overflow (two's
complement).  `wrap64` reduces an unbounded `Int` into `[-2^63, 2^63)`. -/

def wrap64 (x : Int) : Int :=
  (x + 9223372036854775808) % 18446744073709551616 - 9223372036854775808

/-! ## Data model (`auth.go`, `token_management.go`)

`TokenRow` is a row of the `api_tokens` table as the SQL statements see it
(the `permissions` column holds serialized JSON text).  `APIToken` is the
in-memory Go struct; fields a query does not `Scan` keep their Go zero
values. -/

structure TokenRow where
  id : String
  tokenHash : String
  name : String
  permissionsJSON : String
  createdAt : Int
  lastUsed : Option Int
  expiresAt : Option Int
  isActive : Bool
deriving DecidableEq

structure APIToken where
  id : String
  tokenHash : String
  name : String
  permissions : List String
  createdAt : Int
  lastUsed : Option Int
  expiresAt : Option Int
  isActive : Bool
deriving DecidableEq

/-- Permission constants (`auth.go`). -/
def PermissionReadInsights : String := "read:insights"

def PermissionReadHealth : String := "read:health"

def PermissionManageTokens : String := "manage:tokens"

def PermissionAdmin : String := "admin:all"

/-! ## ExpirationPolicy (`token_management.go`)

`parseExpiresIn` delegates to `fmt.Sscanf(s, "%d", &d)` for the `d`/`y`
suffixes and to `time.ParseDuration` otherwise; both library functions are
embedded below. -/

/-- `fmt.Sscanf(s, "%d", &v)`: skip leading spaces, optional sign, a
non-empty digit run (any trailing, unconsumed input is NOT an error), value
range-checked against `int64`.  Returns the scanned value or a scan
error. -/
def sscanfD (s : String) : Except String Int :=
  let s1 := s.data.dropWhile isGoSpace
  let signSplit : Bool × List Char :=
    match s1 with
    | c :: rest => if c == '-' || c == '+' then (c == '-', rest) else (false, s1)
    | [] => (false, s1)
  let ds := signSplit.2.takeWhile isDigitCh
  if ds = [] then Except.error "expected integer"
  else
    let v : Nat := ds.foldl (fun acc c => acc * 10 + (c.toNat - 48)) 0
    let x : Int := if signSplit.1 then -(v : Int) else (v : Int)
    if x < -(2 ^ 63) ∨ 2 ^ 63 - 1 < x then Except.error "value out of range"
    else Except.ok x

/-- `time.leadingInt`: consume a leading digit run into a `uint64`
accumulator, with the stdlib's exact overflow cut-offs. -/
def leadingInt : List Char → Nat → Except Unit (Nat × List Char)
  | [], x => Except.ok (x, [])
  | c :: rest, x =>
    if !isDigitCh c then Except.ok (x, c :: rest)
    else if x > 2 ^ 63 / 10 then Except.error ()
    else
      let x' := x * 10 + (c.toNat - 48)
      if x' > 2 ^ 63 then Except.error ()
      else leadingInt rest x'

/-- `time.leadingFraction`: digits after the decimal point; on overflow the
remaining digits are consumed but ignored.  Returns (value, scale, rest). -/
def leadingFraction : List Char → Nat → Nat → Bool → Nat × Nat × List Char
  | [], x, scale, _ => (x, scale, [])
  | c :: rest, x, scale, overflow =>
    if !isDigitCh c then (x, scale, c :: rest)
    else if overflow then leadingFraction rest x scale true
    else if x > (2 ^ 63 - 1) / 10 then leadingFraction rest x scale true
    else
      let y := x * 10 + (c.toNat - 48)
      if y > 2 ^ 63 then leadingFraction rest x scale true
      else leadingFraction rest y (scale * 10) false

/-- `time.unitMap`: nanoseconds per duration unit. -/
def durationUnit (u : List Char) : Option Nat :=
  if u = ['n', 's'] then some 1
  else if u = ['u', 's'] then some 1000
  else if u = ['µ', 's'] then some 1000
  else if u = ['μ', 's'] then some 1000
  else if u = ['m', 's'] then some 1000000
  else if u = ['s'] then some 1000000000
  else if u = ['m'] then some 60000000000
  else if u = ['h'] then some 3600000000000
  else none

/-- One `number[.fraction]unit` component at a time, exactly following the
loop body of `time.ParseDuration`.  The fractional contribution
`uint64(float64(f) * (float64(unit) / scale))` is modelled as the exact
floor `f * unit / scale` (the claims never exercise fractional inputs).
Fuel is bounded by the input length; every non-error iteration consumes at
least the unit characters, so the fuel never runs out on a realistic
path. -/
def parseDurationLoop : Nat → List Char → Nat → Except Unit Nat
  | 0, _, _ => Except.error ()
  | _, [], d => Except.ok d
  | fuel + 1, s, d =>
    match s with
    | [] => Except.ok d
    | c :: _ =>
      if !(c = '.' ∨ isDigitCh c = true) then Except.error ()
      else
        match leadingInt s 0 with
        | Except.error _ => Except.error ()
        | Except.ok (v, s1) =>
          let pre : Bool := decide (s1.length ≠ s.length)
          let fsp : Nat × Nat × List Char × Bool :=
            match s1 with
            | c' :: s1' =>
              if c' = '.' then
                let r := leadingFraction s1' 0 1 false
                (r.1, r.2.1, r.2.2, decide (r.2.2.length ≠ s1'.length))
              else (0, 1, s1, false)
            | [] => (0, 1, s1, false)
          let f := fsp.1
          let scale := fsp.2.1
          let s2 := fsp.2.2.1
          let post := fsp.2.2.2
          if !pre && !post then Except.error ()
          else
            let unitChars := s2.takeWhile (fun ch => !(ch = '.' ∨ isDigitCh ch = true))
            let s3 := s2.dropWhile (fun ch => !(ch = '.' ∨ isDigitCh ch = true))
            if unitChars = [] then Except.error ()
            else
              match durationUnit unitChars with
              | none => Except.error ()
              | some unit =>
                if v > 2 ^ 63 / unit then Except.error ()
                else
                  let v1 := v * unit
                  let v2 := if 0 < f then v1 + f * unit / scale else v1
                  if 0 < f ∧ v2 > 2 ^ 63 then Except.error ()
                  else if d + v2 > 2 ^ 63 then Except.error ()
                  else parseDurationLoop fuel s3 (d + v2)

/-- `time.ParseDuration`.  The stdlib's distinct error messages ("missing
unit", "unknown unit", "invalid duration") are collapsed into one, because
`parseExpiresIn` discards the message and substitutes its own. -/
def goParseDuration (str : String) : Except String Int :=
  let s0 := str.data
  let signSplit : Bool × List Char :=
    match s0 with
    | c :: rest => if c == '-' || c == '+' then (c == '-', rest) else (false, s0)
    | [] => (false, s0)
  let neg := signSplit.1
  let s := signSplit.2
  if s = ['0'] then Except.ok 0
  else if s = [] then Except.error ("time: invalid duration " ++ str)
  else
    match parseDurationLoop (s.length + 1) s 0 with
    | Except.error _ => Except.error ("time: invalid duration " ++ str)
    | Except.ok d =>
      if neg then Except.ok (-(d : Int))
      else if (d : Int) > 2 ^ 63 - 1 then Except.error ("time: invalid duration " ++ str)
      else Except.ok (d : Int)

/-- `parseExpiresIn` (`token_management.go`): `""` means no expiration; a
`d` suffix is days, a `y` suffix is 365-day years (both via `Sscanf %d`),
anything else goes to `time.ParseDuration`; the resulting duration is added
to the current time (threaded here as `now`).  The `time.Duration`
multiplications wrap at 64 bits exactly as in Go. -/
def parseExpiresIn (expiresIn : String) (now : Int) : Except String (Option Int) :=
  if expiresIn = "" then Except.ok none
  else if goEndsWith expiresIn "d" then
    match sscanfD (goTrimTrailing expiresIn "d") with
    | Except.error _ => Except.error ("invalid days format: " ++ expiresIn)
    | Except.ok d => Except.ok (some (now + wrap64 (wrap64 (d * 24) * 3600000000000)))
  else if goEndsWith expiresIn "y" then
    match sscanfD (goTrimTrailing expiresIn "y") with
    | Except.error _ => Except.error ("invalid years format: " ++ expiresIn)
    | Except.ok y =>
      Except.ok (some (now + wrap64 (wrap64 (wrap64 (y * 365) * 24) * 3600000000000)))
  else
    match goParseDuration expiresIn with
    | Except.error _ => Except.error ("invalid duration format: " ++ expiresIn)
    | Except.ok dur => Except.ok (some (now + dur))

/-! ## PermissionSet (`token_management.go`, `auth.go`) -/

/-- The fixed capability enumeration (`validPermissions` map in
`validatePermissions`). -/
def validPermissionsList : List String :=
  [PermissionReadInsights, PermissionReadHealth, PermissionManageTokens, PermissionAdmin]

/-- `validatePermissions`: the first grant outside the enumeration is
reported; `ok` when all grants are known. -/
def validatePermissions (permissions : List String) : Except String Unit :=
  match permissions.find? (fun perm => !(validPermissionsList.contains perm)) with
  | some perm => Except.error ("invalid permission: " ++ perm)
  | none => Except.ok ()

/-- `hasTokenPermission` (`auth.go`). -/
def hasTokenPermission (token : APIToken) (permission : String) : Bool :=
  token.permissions.any (fun perm => perm == permission || perm == PermissionAdmin)

/-- `hasPermission` (`auth.go`): the `admin:all` loop runs BEFORE the path
switch, so an `admin:all` principal is allowed on every path, mapped or
not; otherwise `/api/insights*` demands `read:insights`, `/api/health*`
demands `read:health`, and any other path falls into the `default: return
false` arm. -/
def hasPermission (token : APIToken) (path : String) : Bool :=
  if token.permissions.any (fun perm => perm == PermissionAdmin) then true
  else if goStartsWith path "/api/insights" then hasTokenPermission token PermissionReadInsights
  else if goStartsWith path "/api/health" then hasTokenPermission token PermissionReadHealth
  else false

/-- `hasAdminPermission` (`auth.go`). -/
def hasAdminPermission (token : APIToken) : Bool :=
  hasTokenPermission token PermissionAdmin || hasTokenPermission token PermissionManageTokens

/-! ## CredentialStore contract and validation (`auth.go`) -/

/-- Outcome of `sql.DB.QueryRow(...).Scan(...)`: a row, `sql.ErrNoRows`, or
any other database error. -/
inductive DBError where
  | noRows
  | other (msg : String)
deriving DecidableEq

/-- The `SELECT ... WHERE token_hash = ? AND is_active = true` lookup of
`validateAPIToken`, run against a concrete table: the first matching row,
else `sql.ErrNoRows`. -/
def queryActiveTokenByHash (store : List TokenRow) (hash : String) :
    Except DBError TokenRow :=
  match store.find? (fun row => row.tokenHash == hash && row.isActive) with
  | some row => Except.ok row
  | none => Except.error DBError.noRows

/-- The `Scan` of `validateAPIToken` reads only `id, token_hash, name,
is_active`; the other `APIToken` fields keep their Go zero values
(`ExpiresAt = nil`, `CreatedAt` zero, `LastUsed = nil`), and `Permissions`
is then overwritten with the hardcoded default list. -/
def scanPrincipal (row : TokenRow) : APIToken :=
  { id := row.id, tokenHash := row.tokenHash, name := row.name,
    permissions := ["read:insights", "read:health"],
    createdAt := 0, lastUsed := none, expiresAt := none, isActive := row.isActive }

/-- `validateAPIToken` (`auth.go`).  The lookup collaborator is passed in
so a persistence-layer failure (`DBError.other`) can be injected; against a
concrete table it is `queryActiveTokenByHash store`.  Note the query
filters only on `token_hash` and `is_active`; `expires_at` is never
consulted and no clock is read. -/
def validateAPIToken (lookup : String → Except DBError TokenRow) (token : String) :
    Except String APIToken :=
  if token = "" then Except.error "empty token"
  else
    match lookup (hashToken token) with
    | Except.error DBError.noRows => Except.error "token not found or expired"
    | Except.error (DBError.other m) => Except.error ("database error: " ++ m)
    | Except.ok row => Except.ok (scanPrincipal row)

/-! ## AuthGate / AdminGate (`auth.go`) -/

/-- The request surface the gates look at.  Absent headers are `""`, as Go
`Header.Get` returns. -/
structure Request where
  authorization : String
  xApiKey : String
  tokenQuery : String
  path : String
deriving DecidableEq

/-- `extractToken` (`auth.go`): `Authorization: Bearer` first, then
`X-API-Key`, then the `token` query parameter. -/
def extractToken (r : Request) : String :=
  if r.authorization ≠ "" ∧ goStartsWith r.authorization "Bearer " = true then
    goTrimLeading r.authorization "Bearer "
  else if r.xApiKey ≠ "" then r.xApiKey
  else r.tokenQuery

inductive GateOutcome where
  | allowed (principal : APIToken)
  | denied (status : Nat) (message : String)
deriving DecidableEq

/-- `APITokenMiddleware` (`auth.go`): 401 on missing token, 401 on any
validation error, 403 when the resolved principal lacks the capability for
the request path, otherwise dispatch to the downstream handler (the
fire-and-forget `last_used` update does not affect the outcome). -/
def APITokenMiddleware (lookup : String → Except DBError TokenRow) (r : Request) :
    GateOutcome :=
  let token := extractToken r
  if token = "" then GateOutcome.denied 401 "Unauthorized: API token required"
  else
    match validateAPIToken lookup token with
    | Except.error _ => GateOutcome.denied 401 "Unauthorized: Invalid token"
    | Except.ok apiToken =>
      if !hasPermission apiToken r.path then
        GateOutcome.denied 403 "Forbidden: Insufficient permissions"
      else GateOutcome.allowed apiToken

/-- `AdminTokenMiddleware` (`auth.go`). -/
def AdminTokenMiddleware (lookup : String → Except DBError TokenRow) (r : Request) :
    GateOutcome :=
  let token := extractToken r
  if token = "" then GateOutcome.denied 401 "Unauthorized: Admin token required"
  else
    match validateAPIToken lookup token with
    | Except.error _ => GateOutcome.denied 401 "Unauthorized: Invalid token"
    | Except.ok apiToken =>
      if !hasAdminPermission apiToken then
        GateOutcome.denied 403 "Forbidden: Admin access required"
      else GateOutcome.allowed apiToken

/-! ## Token issuance over HTTP (`token_management.go`) -/

structure CreateTokenRequest where
  name : String
  permissions : List String
  expiresIn : Option String
deriving DecidableEq

/-- `json.Marshal` of a `[]string` (capability strings contain no
characters that JSON escapes). -/
def jsonMarshalStrings (xs : List String) : String :=
  "[" ++ String.intercalate "," (xs.map (fun s => "\"" ++ s ++ "\"")) ++ "]"

inductive CreateResult where
  | httpError (status : Nat) (message : String)
  | created (token : String) (tokenID : String) (apiToken : APIToken)
deriving DecidableEq

/-- `handleCreateToken` (`token_management.go`).  `randHex` is the hex of
the 32 random bytes drawn by `generateSecureToken` (whose only failure mode
— an unavailable secure-random source — is out of scope), `newID` the id
the `INSERT ... RETURNING id` hands back, `now` the clock.  Returns the
HTTP outcome and the table after the call. -/
def handleCreateToken (req : CreateTokenRequest) (randHex : String) (newID : String)
    (now : Int) (store : List TokenRow) : CreateResult × List TokenRow :=
  if req.name = "" then (CreateResult.httpError 400 "Token name is required", store)
  else if req.permissions.length = 0 then
    (CreateResult.httpError 400 "At least one permission is required", store)
  else
    match validatePermissions req.permissions with
    | Except.error msg => (CreateResult.httpError 400 msg, store)
    | Except.ok _ =>
      let expiresAtE : Except String (Option Int) :=
        match req.expiresIn with
        | some e => parseExpiresIn e now
        | none => Except.ok none
      match expiresAtE with
      | Except.error msg => (CreateResult.httpError 400 msg, store)
      | Except.ok expiresAt =>
        let token := "analytics_" ++ randHex
        let row : TokenRow :=
          { id := newID, tokenHash := hashToken token, name := req.name,
            permissionsJSON := jsonMarshalStrings req.permissions,
            createdAt := now, lastUsed := none, expiresAt := expiresAt, isActive := true }
        (CreateResult.created token newID
          { id := newID, tokenHash := "", name := req.name,
            permissions := req.permissions, createdAt := now, lastUsed := none,
            expiresAt := expiresAt, isActive := true },
         store ++ [row])

/-! ## Token revocation (`token_management.go`) -/

inductive RevokeResult where
  | httpError (status : Nat) (message : String)
  | success
deriving DecidableEq

/-- `handleRevokeToken`: `UPDATE api_tokens SET is_active = false WHERE id
= ?`, then 404 when `RowsAffected` is zero, success otherwise. -/
def handleRevokeToken (tokenID : String) (store : List TokenRow) :
    RevokeResult × List TokenRow :=
  if tokenID = "" then (RevokeResult.httpError 400 "Token ID is required", store)
  else
    let newStore := store.map (fun t => if t.id == tokenID then { t with isActive := false } else t)
    let rowsAffected := (store.filter (fun t => t.id == tokenID)).length
    if rowsAffected = 0 then (RevokeResult.httpError 404 "Token not found", newStore)
    else (RevokeResult.success, newStore)

/-! ## Issuance CLI (`cmd/token-manager/main.go`) -/

/-- `formatPermissions`: split the comma-separated list, trim spaces, wrap
each entry in quotes — with no validation whatsoever. -/
def formatPermissions (permissions : String) : String :=
  "[" ++ String.intercalate ","
    ((splitComma permissions.data).map
      (fun p => "\"" ++ String.mk (trimSpaceList p) ++ "\"")) ++ "]"

inductive CLIResult where
  | fatal (message : String)
  | success (printedToken : String)
deriving DecidableEq

/-- `createToken` (`cmd/token-manager/main.go`): checks only that `name`
and `permissions` are non-empty, then inserts the row.  The `permissions`
string is formatted as-is (no check against the capability enumeration)
and the `INSERT` always writes `expires_at = NULL`; the `expires` argument
is never parsed (`formatExpiration` returns `"NULL"` unconditionally and is
not even called by the insert).  `createdAt`/`id` are left to database
defaults, modelled as `0`/`""`. -/
def cliCreateToken (name permissions expires : String) (randHex : String)
    (store : List TokenRow) : CLIResult × List TokenRow :=
  if name = "" then (CLIResult.fatal "Token name is required", store)
  else if permissions = "" then (CLIResult.fatal "Permissions are required", store)
  else
    let token := "analytics_" ++ randHex
    let row : TokenRow :=
      { id := "", tokenHash := hashToken token, name := name,
        permissionsJSON := formatPermissions permissions,
        createdAt := 0, lastUsed := none, expiresAt := none, isActive := true }
    (CLIResult.success token, store ++ [row])

/-! ## DashboardGate (`dashboard_auth.go`) -/

/-- `subtle.ConstantTimeCompare` on the UTF-8 bytes of the two strings:
`1` exactly when they are equal (UTF-8 encoding is injective).  The
constant-time execution property itself is a timing property outside this
embedding. -/
def constantTimeCompare (a b : String) : Nat := if a = b then 1 else 0

/-- `validateDashboardCredentials` (`dashboard_auth.go`).  The two
environment variables `DASHBOARD_USERNAME` / `DASHBOARD_PASSWORD` are
threaded as explicit configuration arguments. -/
def validateDashboardCredentials (username password expectedUsername expectedPassword :
    String) : Bool :=
  if expectedUsername = "" ∨ expectedPassword = "" then false
  else if constantTimeCompare username expectedUsername ≠ 1 then false
  else if constantTimeCompare password expectedPassword ≠ 1 then false
  else true

/-! ## Helper lemmas -/

theorem data_append (s t : String) : (s ++ t).data = s.data ++ t.data := rfl

theorem mk_data (s : String) : String.mk s.data = s := rfl

theorem isPrefixOf_append_self (l t : List Char) : l.isPrefixOf (l ++ t) = true := by
  induction l with
  | nil => simp [List.isPrefixOf]
  | cons c cs ih => simp [List.isPrefixOf, ih]

theorem goStartsWith_append (p x : String) : goStartsWith (p ++ x) p = true := by
  unfold goStartsWith
  rw [data_append]
  exact isPrefixOf_append_self p.data x.data

theorem goTrimLeading_append (p x : String) : goTrimLeading (p ++ x) p = x := by
  unfold goTrimLeading
  rw [if_pos (goStartsWith_append p x), data_append, List.drop_left, mk_data]

theorem append_ne_empty_left {p : String} (x : String) (h : p.data ≠ []) : p ++ x ≠ "" := by
  intro he
  have : (p ++ x).data = ("" : String).data := congrArg String.data he
  rw [data_append] at this
  exact h (List.append_eq_nil.mp this).1

theorem singleton_isSuffixOf_append (c c' : Char) (l : List Char) :
    List.isSuffixOf [c] (l ++ [c']) = (c == c') := by
  simp [List.isSuffixOf, List.isPrefixOf]

theorem goEndsWith_append_char (s : String) (c c' : Char) :
    goEndsWith (s ++ String.mk [c']) (String.mk [c]) = (c == c') := by
  unfold goEndsWith
  rw [data_append]
  exact singleton_isSuffixOf_append c c' s.data

theorem goTrimTrailing_append_char (s : String) (c : Char) :
    goTrimTrailing (s ++ String.mk [c]) (String.mk [c]) = s := by
  unfold goTrimTrailing
  rw [if_pos, data_append]
  · show String.mk ((s.data ++ [c]).take ((s.data ++ [c]).length - 1)) = s
    have hlen : (s.data ++ [c]).length - 1 = s.data.length := by
      simp [List.length_append]
    rw [hlen, List.take_left, mk_data]
  · rw [goEndsWith_append_char]
    exact beq_self_eq_true c

theorem wrap64_eq_self {x : Int}
    (h1 : -9223372036854775808 ≤ x) (h2 : x < 9223372036854775808) : wrap64 x = x := by
  unfold wrap64
  rw [Int.emod_eq_of_lt (by omega) (by omega)]
  omega

theorem append_ne_empty_right (s : String) {x : String} (h : x.data ≠ []) : s ++ x ≠ "" := by
  intro he
  have hd : (s ++ x).data = ("" : String).data := congrArg String.data he
  rw [data_append] at hd
  exact h (List.append_eq_nil.mp hd).2

theorem goEndsWith_append_same (s : String) (c : Char) :
    goEndsWith (s ++ String.mk [c]) (String.mk [c]) = true := by
  rw [goEndsWith_append_char]
  exact beq_self_eq_true c

/-! ## Claim theorems -/

/-- C6: for every submitted username/password pair, if either configured
dashboard credential (`DASHBOARD_USERNAME` or `DASHBOARD_PASSWORD`) is
unset/empty, `validateDashboardCredentials` returns `false` — including for
the empty submitted pair — so every Basic-auth attempt is denied. -/
theorem validateDashboardCredentials_fail_closed
    (username password expectedUsername expectedPassword : String)
    (hcfg : expectedUsername = "" ∨ expectedPassword = "") :
    validateDashboardCredentials username password expectedUsername expectedPassword
      = false := by
  unfold validateDashboardCredentials
  rw [if_pos hcfg]

/-- Witness for C6, at the empty submitted-credential pair with both
configured values unset. -/
theorem validateDashboardCredentials_fail_closed_witness :
    validateDashboardCredentials "" "" "" "" = false :=
  validateDashboardCredentials_fail_closed "" "" "" "" (Or.inl rfl)

/-- C7: `extractToken` applies the precedence `Authorization: Bearer`
header, then `X-API-Key` header, then `token` query parameter, first match
wins; in particular a request carrying both `Authorization: Bearer X` and
`X-API-Key: Y` yields `X`, not `Y`. -/
theorem extractToken_precedence :
    (∀ (x y z p : String), extractToken ⟨"Bearer " ++ x, y, z, p⟩ = x) ∧
    (∀ (a y z p : String), goStartsWith a "Bearer " = false → y ≠ "" →
      extractToken ⟨a, y, z, p⟩ = y) ∧
    (∀ (a z p : String), goStartsWith a "Bearer " = false →
      extractToken ⟨a, "", z, p⟩ = z) := by
  refine ⟨?_, ?_, ?_⟩
  · intro x y z p
    unfold extractToken
    rw [if_pos ⟨append_ne_empty_left x (by decide), goStartsWith_append "Bearer " x⟩]
    exact goTrimLeading_append "Bearer " x
  · intro a y z p ha hy
    unfold extractToken
    rw [if_neg (fun hc => by rw [ha] at hc; exact Bool.false_ne_true hc.2), if_pos hy]
  · intro a z p ha
    unfold extractToken
    rw [if_neg (fun hc => by rw [ha] at hc; exact Bool.false_ne_true hc.2),
      if_neg (fun hc => hc rfl)]

/-- Witness for C7 at concrete header values. -/
theorem extractToken_precedence_witness :
    extractToken ⟨"Bearer " ++ "X", "Y", "Z", "/api/health"⟩ = "X" ∧
    extractToken ⟨"NotBearer", "Y", "Z", "/api/health"⟩ = "Y" ∧
    extractToken ⟨"NotBearer", "", "Z", "/api/health"⟩ = "Z" :=
  ⟨extractToken_precedence.1 "X" "Y" "Z" "/api/health",
   extractToken_precedence.2.1 "NotBearer" "Y" "Z" "/api/health" (by decide) (by decide),
   extractToken_precedence.2.2 "NotBearer" "Z" "/api/health" (by decide)⟩

/-- C9 counterexample: the claim "for EVERY resolved principal,
`hasPermission` on an unmapped path evaluates to deny" is false as stated:
the `admin:all` short-circuit in `hasPermission` runs before the path
switch, so a principal holding the universal override is allowed on
`/metrics`, a path outside the static mapping. -/
theorem hasPermission_unmapped_counterexample :
    hasPermission
      { id := "t1", tokenHash := "h", name := "svc",
        permissions := [PermissionAdmin], createdAt := 0, lastUsed := none,
        expiresAt := none, isActive := true } "/metrics" = true := by decide

/-- C9 amended: for every resolved principal whose grants do NOT include
the universal override `admin:all`, every request path outside the static
path-to-capability mapping (not prefixed by `/api/insights` or
`/api/health`) evaluates to deny, never to allow by default. -/
theorem hasPermission_unmapped_denies (token : APIToken) (path : String)
    (hAdmin : PermissionAdmin ∉ token.permissions)
    (h1 : goStartsWith path "/api/insights" = false)
    (h2 : goStartsWith path "/api/health" = false) :
    hasPermission token path = false := by
  have h0 : token.permissions.any (fun perm => perm == PermissionAdmin) = false := by
    rw [List.any_eq_false]
    intro x hx he
    exact hAdmin (eq_of_beq he ▸ hx)
  unfold hasPermission
  rw [h0, if_neg Bool.false_ne_true,
    if_neg (fun hc => Bool.false_ne_true (h1 ▸ hc)),
    if_neg (fun hc => Bool.false_ne_true (h2 ▸ hc))]

/-- C1 (code bug): usability is NOT re-checked at validation time.  A
credential issued at `now = 0` with TTL `"1d"` is persisted with
`expires_at = 86400000000000` ns (24h), yet `validateAPIToken` — whose
simplified query filters only on `token_hash` and `is_active` and which
consults no clock at all — still returns a principal; since the result is
time-independent, validation also succeeds 25h (90000000000000 ns) after
creation, when the credential is expired, contradicting the claim (and the
repository's own ANALYTICS_AUTH_STRATEGY.md, whose documented query
includes `AND (expires_at IS NULL OR expires_at > NOW())`, as well as the
code's own "token not found or expired" error message). -/
theorem validateAPIToken_ignores_expiry_bug :
    (handleCreateToken
        { name := "svc", permissions := ["read:insights"], expiresIn := some "1d" }
        "c0ffee" "t1" 0 []).2
      = [{ id := "t1", tokenHash := hashToken "analytics_c0ffee", name := "svc",
           permissionsJSON := "[\"read:insights\"]", createdAt := 0, lastUsed := none,
           expiresAt := some 86400000000000, isActive := true }] ∧
    (86400000000000 : Int) < 90000000000000 ∧
    validateAPIToken
      (queryActiveTokenByHash
        (handleCreateToken
          { name := "svc", permissions := ["read:insights"], expiresIn := some "1d" }
          "c0ffee" "t1" 0 []).2)
      "analytics_c0ffee"
      = Except.ok
          (scanPrincipal
            { id := "t1", tokenHash := hashToken "analytics_c0ffee", name := "svc",
              permissionsJSON := "[\"read:insights\"]", createdAt := 0, lastUsed := none,
              expiresAt := some 86400000000000, isActive := true }) := by
  refine ⟨by decide, by decide, rfl⟩

/-- C2 (code bug): the issuance/validation round trip does not preserve
grants.  A credential issued with name `"svc"` and grants
`["manage:tokens"]` resolves to a principal whose name is `"svc"` but
whose grants are the hardcoded default `["read:insights", "read:health"]`
(`validateAPIToken`'s "Set default permissions for now"), not the issued
list.  The spec's design notes themselves flag this fallback as leftover
scaffolding. -/
theorem roundtrip_grants_bug :
    validateAPIToken
      (queryActiveTokenByHash
        (handleCreateToken
          { name := "svc", permissions := ["manage:tokens"], expiresIn := none }
          "0abc" "t1" 0 []).2)
      "analytics_0abc"
      = Except.ok
          { id := "t1", tokenHash := hashToken "analytics_0abc", name := "svc",
            permissions := ["read:insights", "read:health"], createdAt := 0,
            lastUsed := none, expiresAt := none, isActive := true } ∧
    (["read:insights", "read:health"] : List String) ≠ ["manage:tokens"] := by
  refine ⟨rfl, by decide⟩

/-- C3 (code bug): a credential issued with the universal override
`admin:all` is NOT authorized everywhere, because `validateAPIToken`
replaces its stored grants with the default list before any permission
check runs: `AdminTokenMiddleware` denies it with 403 on
`/api/admin/tokens`.  The same secret is accepted by `APITokenMiddleware`
on `/api/insights/usage`, showing the denial comes from the discarded
grants, not from an invalid credential. -/
theorem admin_override_bug :
    AdminTokenMiddleware
      (queryActiveTokenByHash
        (handleCreateToken
          { name := "root", permissions := ["admin:all"], expiresIn := none }
          "beef" "t1" 0 []).2)
      { authorization := "Bearer analytics_beef", xApiKey := "", tokenQuery := "",
        path := "/api/admin/tokens" }
      = GateOutcome.denied 403 "Forbidden: Admin access required" ∧
    APITokenMiddleware
      (queryActiveTokenByHash
        (handleCreateToken
          { name := "root", permissions := ["admin:all"], expiresIn := none }
          "beef" "t1" 0 []).2)
      { authorization := "Bearer analytics_beef", xApiKey := "", tokenQuery := "",
        path := "/api/insights/usage" }
      = GateOutcome.allowed
          (scanPrincipal
            { id := "t1", tokenHash := hashToken "analytics_beef", name := "root",
              permissionsJSON := "[\"admin:all\"]", createdAt := 0, lastUsed := none,
              expiresAt := none, isActive := true }) := by
  refine ⟨by decide, by decide⟩

/-- C5 (code bug): the issuance CLI persists a row even when the grant
list contains a string outside the capability enumeration AND the TTL spec
is unparseable — it runs no validation at all, and its `INSERT` always
writes `expires_at = NULL`.  The last two conjuncts show the same inputs
are rejected by the system's own validators, and that the HTTP
create-token handler (in contrast) refuses them with 400 and leaves the
store empty. -/
theorem cli_persists_invalid_bug :
    cliCreateToken "svc" "bogus:capability" "notaduration" "abcd" []
      = (CLIResult.success "analytics_abcd",
         [{ id := "", tokenHash := hashToken "analytics_abcd", name := "svc",
            permissionsJSON := "[\"bogus:capability\"]", createdAt := 0,
            lastUsed := none, expiresAt := none, isActive := true }]) ∧
    validatePermissions ["bogus:capability"]
      = Except.error "invalid permission: bogus:capability" ∧
    parseExpiresIn "notaduration" 0
      = Except.error "invalid duration format: notaduration" ∧
    handleCreateToken
        { name := "svc", permissions := ["bogus:capability"], expiresIn := none }
        "abcd" "t1" 0 []
      = (CreateResult.httpError 400 "invalid permission: bogus:capability", []) := by
  refine ⟨by decide, rfl, rfl, by decide⟩

/-- C4 counterexample: the claim counts "expired" among the conditions
that fail resolution and produce 401, but the lookup behind
`validateAPIToken` never reads `expires_at` (and no clock is consulted
anywhere on the path), so a stored credential that is active yet expired —
here `expires_at` is 1ns after the epoch, in the past of every plausible
request time — still resolves, and a request presenting its secret is
ALLOWED on `/api/insights/usage` rather than denied with 401. -/
theorem APITokenMiddleware_expired_not_401 :
    APITokenMiddleware
      (queryActiveTokenByHash
        [{ id := "t1", tokenHash := hashToken "analytics_aa", name := "svc",
           permissionsJSON := "[\"read:insights\"]", createdAt := 0, lastUsed := none,
           expiresAt := some 1, isActive := true }])
      { authorization := "Bearer analytics_aa", xApiKey := "", tokenQuery := "",
        path := "/api/insights/usage" }
      = GateOutcome.allowed
          (scanPrincipal
            { id := "t1", tokenHash := hashToken "analytics_aa", name := "svc",
              permissionsJSON := "[\"read:insights\"]", createdAt := 0, lastUsed := none,
              expiresAt := some 1, isActive := true }) := by
  decide

/-- C4 amended: for every request through `APITokenMiddleware`, a missing
credential, a credential that does not resolve (not found or
inactive/revoked, both surfacing as `sql.ErrNoRows`), and a
persistence-layer error during lookup all produce HTTP 401; a credential
that resolves but lacks the capability required for the requested path
produces HTTP 403; an authorized credential is dispatched downstream; and
401/403 are the only denial statuses.  (Expired-but-active credentials are
not in the non-resolving class, because the lookup never filters on
`expires_at`.) -/
theorem APITokenMiddleware_status_mapping
    (lookup : String → Except DBError TokenRow) (r : Request) :
    (extractToken r = "" →
      APITokenMiddleware lookup r
        = GateOutcome.denied 401 "Unauthorized: API token required") ∧
    (extractToken r ≠ "" →
      lookup (hashToken (extractToken r)) = Except.error DBError.noRows →
      APITokenMiddleware lookup r
        = GateOutcome.denied 401 "Unauthorized: Invalid token") ∧
    (∀ msg, extractToken r ≠ "" →
      lookup (hashToken (extractToken r)) = Except.error (DBError.other msg) →
      APITokenMiddleware lookup r
        = GateOutcome.denied 401 "Unauthorized: Invalid token") ∧
    (∀ store, extractToken r ≠ "" →
      (∀ row ∈ store, row.tokenHash = hashToken (extractToken r) → row.isActive = false) →
      APITokenMiddleware (queryActiveTokenByHash store) r
        = GateOutcome.denied 401 "Unauthorized: Invalid token") ∧
    (∀ row, extractToken r ≠ "" →
      lookup (hashToken (extractToken r)) = Except.ok row →
      hasPermission (scanPrincipal row) r.path = false →
      APITokenMiddleware lookup r
        = GateOutcome.denied 403 "Forbidden: Insufficient permissions") ∧
    (∀ row, extractToken r ≠ "" →
      lookup (hashToken (extractToken r)) = Except.ok row →
      hasPermission (scanPrincipal row) r.path = true →
      APITokenMiddleware lookup r = GateOutcome.allowed (scanPrincipal row)) ∧
    (∀ st msg, APITokenMiddleware lookup r = GateOutcome.denied st msg →
      st = 401 ∨ st = 403) := by
  refine ⟨?_, ?_, ?_, ?_, ?_, ?_, ?_⟩
  · intro he
    unfold APITokenMiddleware
    rw [if_pos he]
  · intro hne hlk
    unfold APITokenMiddleware validateAPIToken
    rw [if_neg hne, if_neg hne, hlk]
  · intro msg hne hlk
    unfold APITokenMiddleware validateAPIToken
    rw [if_neg hne, if_neg hne, hlk]
  · intro store hne hrows
    have hfind :
        store.find? (fun row => row.tokenHash == hashToken (extractToken r) && row.isActive)
          = none := by
      rw [List.find?_eq_none]
      intro row hrow hp
      cases hb : (row.tokenHash == hashToken (extractToken r)) with
      | false => rw [hb, Bool.false_and] at hp; exact Bool.false_ne_true hp
      | true =>
        rw [hb, Bool.true_and] at hp
        rw [hrows row hrow (eq_of_beq hb)] at hp
        exact Bool.false_ne_true hp
    unfold APITokenMiddleware validateAPIToken queryActiveTokenByHash
    rw [if_neg hne, if_neg hne, hfind]
  · intro row hne hlk hperm
    unfold APITokenMiddleware validateAPIToken
    rw [if_neg hne, if_neg hne, hlk]
    show (if !hasPermission (scanPrincipal row) r.path then _ else _) = _
    rw [hperm]
    rfl
  · intro row hne hlk hperm
    unfold APITokenMiddleware validateAPIToken
    rw [if_neg hne, if_neg hne, hlk]
    show (if !hasPermission (scanPrincipal row) r.path then _ else _) = _
    rw [hperm]
    rfl
  · intro st msg h
    unfold APITokenMiddleware at h
    by_cases h1 : extractToken r = ""
    · rw [if_pos h1] at h
      cases h
      exact Or.inl rfl
    · rw [if_neg h1] at h
      revert h
      cases validateAPIToken lookup (extractToken r) with
      | error e =>
        intro h
        cases h
        exact Or.inl rfl
      | ok tok =>
        intro h
        have h' : (if (!hasPermission tok r.path) = true
            then GateOutcome.denied 403 "Forbidden: Insufficient permissions"
            else GateOutcome.allowed tok) = GateOutcome.denied st msg := h
        cases hpb : hasPermission tok r.path with
        | true => rw [hpb] at h'; simp at h'
        | false =>
          rw [hpb] at h'
          cases h'
          exact Or.inr rfl

/-- Witness for C4 (amended): a request with no credential at all is
denied with 401 against the empty store. -/
theorem APITokenMiddleware_status_mapping_witness :
    APITokenMiddleware (queryActiveTokenByHash [])
      { authorization := "", xApiKey := "", tokenQuery := "", path := "/api/insights" }
      = GateOutcome.denied 401 "Unauthorized: API token required" :=
  (APITokenMiddleware_status_mapping (queryActiveTokenByHash [])
    { authorization := "", xApiKey := "", tokenQuery := "", path := "/api/insights" }).1 rfl

/-- C10: for every token ID not present in the store, `handleRevokeToken`
returns 404 and modifies no credential row; for every ID that is present,
it sets `is_active` to `false` (regardless of its prior value) and reports
success, leaving length and all non-matching rows unchanged.  The ID is
assumed non-empty: the `mux` route variable `{id}` never matches the empty
string, and the handler's own guard returns 400 for it before touching the
store. -/
theorem handleRevokeToken_spec (tokenID : String) (store : List TokenRow)
    (hid : tokenID ≠ "") :
    ((∀ t ∈ store, t.id ≠ tokenID) →
      handleRevokeToken tokenID store
        = (RevokeResult.httpError 404 "Token not found", store)) ∧
    ((∃ t ∈ store, t.id = tokenID) →
      (handleRevokeToken tokenID store).1 = RevokeResult.success ∧
      (handleRevokeToken tokenID store).2.length = store.length ∧
      (∀ t ∈ (handleRevokeToken tokenID store).2, t.id = tokenID → t.isActive = false) ∧
      (∀ t ∈ store, t.id ≠ tokenID → t ∈ (handleRevokeToken tokenID store).2)) := by
  unfold handleRevokeToken
  rw [if_neg hid]
  constructor
  · intro habs
    have hfil : store.filter (fun t => t.id == tokenID) = [] := by
      rw [List.filter_eq_nil_iff]
      intro a ha he
      exact habs a ha (eq_of_beq he)
    have hmap :
        store.map (fun t => if t.id == tokenID then { t with isActive := false } else t)
          = store := by
      conv_rhs => rw [← List.map_id store]
      apply List.map_congr_left
      intro a ha
      rw [if_neg (fun he => habs a ha (eq_of_beq he))]
      rfl
    rw [hfil, hmap]
    simp
  · rintro ⟨t0, ht0, hid0⟩
    have hne : store.filter (fun t => t.id == tokenID) ≠ [] := by
      intro he
      have := List.filter_eq_nil_iff.mp he t0 ht0
      exact this (by rw [hid0]; exact beq_self_eq_true tokenID)
    rw [if_neg (fun hz => hne (List.length_eq_zero.mp hz))]
    refine ⟨rfl, by simp, ?_, ?_⟩
    · intro t ht hteq
      rcases List.mem_map.mp ht with ⟨a, _, hfa⟩
      by_cases hcase : a.id == tokenID
      · rw [if_pos hcase] at hfa
        rw [← hfa]
      · rw [if_neg hcase] at hfa
        exact absurd (by rw [hfa, hteq]; exact beq_self_eq_true tokenID) hcase
    · intro t ht hne2
      have : (if t.id == tokenID then { t with isActive := false } else t) = t := by
        rw [if_neg (fun he => hne2 (eq_of_beq he))]
      rw [← this]
      exact List.mem_map_of_mem _ ht

/-- Witness for C10: a one-row store; revoking an absent ID gives 404 and
an unchanged store, revoking the present ID reports success. -/
theorem handleRevokeToken_spec_witness :
    handleRevokeToken "t2"
        [{ id := "t1", tokenHash := "h", name := "svc", permissionsJSON := "[]",
           createdAt := 0, lastUsed := none, expiresAt := none, isActive := true }]
      = (RevokeResult.httpError 404 "Token not found",
         [{ id := "t1", tokenHash := "h", name := "svc", permissionsJSON := "[]",
            createdAt := 0, lastUsed := none, expiresAt := none, isActive := true }]) ∧
    (handleRevokeToken "t1"
        [{ id := "t1", tokenHash := "h", name := "svc", permissionsJSON := "[]",
           createdAt := 0, lastUsed := none, expiresAt := none, isActive := true }]).1
      = RevokeResult.success :=
  ⟨(handleRevokeToken_spec "t2" _ (by decide)).1 (by decide),
   ((handleRevokeToken_spec "t1" _ (by decide)).2 ⟨_, List.mem_singleton_self _, rfl⟩).1⟩

/-- Witness for C9 (amended) at a concrete non-admin principal and an
unmapped path. -/
theorem hasPermission_unmapped_denies_witness :
    hasPermission
      { id := "t1", tokenHash := "h", name := "svc",
        permissions := ["read:insights", "read:health"], createdAt := 0,
        lastUsed := none, expiresAt := none, isActive := true } "/metrics" = false :=
  hasPermission_unmapped_denies _ "/metrics" (by decide) (by decide) (by decide)

/-- C8 counterexample: the claim says `parseExpiresIn` fails with a parse
error for `"12abcd"` (non-numeric magnitude), but `fmt.Sscanf("%d")` stops
at the first non-digit and does not treat unconsumed trailing input as an
error, so `"12abcd"` (suffix `d`, magnitude `"12abc"`) is accepted as 12
days = 1036800000000000 ns. -/
theorem parseExpiresIn_trailing_garbage_counterexample :
    parseExpiresIn "12abcd" 0 = Except.ok (some 1036800000000000) := rfl

/-- C8 amended: `parseExpiresIn` resolves the empty spec to "none"; a spec
with suffix `d` to now plus N*24 hours and a spec with suffix `y` to now
plus N*365*24 hours, where N is whatever `Sscanf %d` reads from the
magnitude (trailing non-digit characters after the number, as in
`"12abcd"`, are silently ignored, not an error); any other spec is parsed
as a general duration expression; it fails with a parse error only when the
scan / duration parse itself fails, e.g. for a magnitude with no leading
number (`"abcd"`) or an invalid duration expression.  The N-bounds keep the
`time.Duration` products inside `int64`. -/
theorem parseExpiresIn_spec (now : Int) :
    parseExpiresIn "" now = Except.ok none ∧
    (∀ (s : String) (d : Int), sscanfD s = Except.ok d →
      -106751 ≤ d → d ≤ 106751 →
      parseExpiresIn (s ++ "d") now = Except.ok (some (now + d * 86400000000000))) ∧
    (∀ (s : String) (y : Int), sscanfD s = Except.ok y →
      -292 ≤ y → y ≤ 292 →
      parseExpiresIn (s ++ "y") now = Except.ok (some (now + y * 31536000000000000))) ∧
    (∀ s : String, s ≠ "" → goEndsWith s "d" = false → goEndsWith s "y" = false →
      parseExpiresIn s now
        = match goParseDuration s with
          | Except.ok dur => Except.ok (some (now + dur))
          | Except.error _ => Except.error ("invalid duration format: " ++ s)) ∧
    parseExpiresIn "abcd" now = Except.error "invalid days format: abcd" ∧
    parseExpiresIn "36h" now = Except.ok (some (now + 129600000000000)) ∧
    parseExpiresIn "12abcd" now = Except.ok (some (now + 1036800000000000)) := by
  refine ⟨rfl, ?_, ?_, ?_, rfl, rfl, rfl⟩
  · intro s d hs hb1 hb2
    have hne : s ++ "d" ≠ "" := append_ne_empty_right s (by decide)
    have hEnd : goEndsWith (s ++ "d") "d" = true := goEndsWith_append_same s 'd'
    have hTrim : goTrimTrailing (s ++ "d") "d" = s := goTrimTrailing_append_char s 'd'
    unfold parseExpiresIn
    rw [if_neg hne, hEnd, if_pos rfl, hTrim, hs]
    show Except.ok (some (now + wrap64 (wrap64 (d * 24) * 3600000000000)))
      = Except.ok (some (now + d * 86400000000000))
    have w1 : wrap64 (d * 24) = d * 24 := wrap64_eq_self (by omega) (by omega)
    rw [w1]
    have w2 : wrap64 (d * 24 * 3600000000000) = d * 24 * 3600000000000 :=
      wrap64_eq_self (by omega) (by omega)
    rw [w2, mul_assoc]
    norm_num
  · intro s y hs hb1 hb2
    have hne : s ++ "y" ≠ "" := append_ne_empty_right s (by decide)
    have hEndD : goEndsWith (s ++ "y") "d" = ('d' == 'y') := goEndsWith_append_char s 'd' 'y'
    rw [show ('d' == 'y') = false from rfl] at hEndD
    have hEnd : goEndsWith (s ++ "y") "y" = true := goEndsWith_append_same s 'y'
    have hTrim : goTrimTrailing (s ++ "y") "y" = s := goTrimTrailing_append_char s 'y'
    unfold parseExpiresIn
    rw [if_neg hne, hEndD, if_neg Bool.false_ne_true, hEnd, if_pos rfl, hTrim, hs]
    show Except.ok (some (now + wrap64 (wrap64 (wrap64 (y * 365) * 24) * 3600000000000)))
      = Except.ok (some (now + y * 31536000000000000))
    have w1 : wrap64 (y * 365) = y * 365 := wrap64_eq_self (by omega) (by omega)
    rw [w1]
    have w2 : wrap64 (y * 365 * 24) = y * 365 * 24 := wrap64_eq_self (by omega) (by omega)
    rw [w2]
    have w3 : wrap64 (y * 365 * 24 * 3600000000000) = y * 365 * 24 * 3600000000000 :=
      wrap64_eq_self (by omega) (by omega)
    rw [w3, mul_assoc, mul_assoc]
    norm_num
  · intro s hs0 hd hy
    unfold parseExpiresIn
    rw [if_neg hs0, hd, hy, if_neg Bool.false_ne_true, if_neg Bool.false_ne_true]
    cases goParseDuration s with
    | error e => rfl
    | ok dur => rfl

/-- Witness for C8 (amended): the `"30d"` TTL resolves to 30 days past
`now = 0`. -/
theorem parseExpiresIn_spec_witness :
    parseExpiresIn ("30" ++ "d") 0 = Except.ok (some (0 + 30 * 86400000000000)) :=
  (parseExpiresIn_spec 0).2.1 "30" 30 rfl (by decide) (by decide)

end LibAnalytics
